import Mathlib

/-
Shallow embedding of the measurement pipeline of the 4-view body
measurement repository.

Sources embedded here:
  * body_measurement_circumference_only.py
      - extract_landmarks_2d, assess_pose_quality
      - the per-frame stabilization / capture loop body of auto_capture_view
      - _average_landmarks, triangulate_4view, calculate_circumference_only
  * circumference_utils.py
      - CircumferenceAnalyzer.CIRCUMFERENCE_STANDARDS, validate_circumference
  * config.py / advanced_config.py constants used by the pipeline.

Conventions: Python floats are modelled as real numbers; a Python value
that may be `None` is modelled as an `Option`; a Python dict built by
iterating a fixed table is modelled as an association list keyed by the
table's (distinct) names.  `round(x, 2)` is modelled by `round2`.
-/

noncomputable section

namespace BodyMeas

/-- Mean of a list of reals, as computed by `np.mean` (sum divided by length). -/
def listMean (xs : List ℝ) : ℝ := xs.sum / xs.length

/-- Rounding to two decimal places, modelling Python `round(x, 2)`. -/
def round2 (x : ℝ) : ℝ := ((⌊x * 100 + 1 / 2⌋ : ℤ) : ℝ) / 100

/-- A detected 2D joint: pixel coordinates, relative depth, and detection
confidence, as stored by `extract_landmarks_2d`. -/
structure Landmark where
  x : ℝ
  y : ℝ
  z : ℝ
  visibility : ℝ

/-- A fixed-size ordered collection of optional joints (the per-frame
`landmarks_2d` list of the source; `None` entries are absent joints). -/
abbrev LandmarkSet := List (Option Landmark)

/-- A combined 3D point: `triangulate_4view` drops the confidence field. -/
structure Point3 where
  x : ℝ
  y : ℝ
  z : ℝ

/-- 3D Euclidean distance as computed inline (via `np.sqrt` of the sum of
squared coordinate differences) in `calculate_circumference_only`. -/
def dist3 (p q : Point3) : ℝ :=
  Real.sqrt ((p.x - q.x) ^ 2 + (p.y - q.y) ^ 2 + (p.z - q.z) ^ 2)

/-- `self.min_visibility_score` (also `MIN_VISIBILITY_SCORE` in config.py). -/
def min_visibility_score : ℝ := 0.75

/-- `self.min_joints_visible` (also `MIN_JOINTS_VISIBLE` in config.py). -/
def min_joints_visible : ℕ := 28

/-- `pose_stable_threshold` in `auto_capture_view`. -/
def pose_stable_threshold : ℕ := 15

/-- `self.frames_per_view` (also `FRAMES_PER_VIEW` in config.py). -/
def frames_per_view : ℕ := 30

/-- `extract_landmarks_2d`: a raw model landmark with normalized
coordinates is kept (scaled to pixel coordinates) when its visibility
exceeds the threshold, and replaced by `None` otherwise. -/
def extract_landmarks_2d (raw : List Landmark) (width height : ℝ) : LandmarkSet :=
  raw.map (fun lm =>
    if lm.visibility > min_visibility_score then
      some ⟨lm.x * width, lm.y * height, lm.z, lm.visibility⟩
    else none)

/-- The issues `assess_pose_quality` can report (the source uses message
strings; only their identity matters here). -/
inductive PoseIssue where
  | noLandmarks
  | notEnoughJoints
  | headNotCentered
  | standUpright
deriving DecidableEq

/-- The `(is_valid, quality_score, issues)` triple returned by
`assess_pose_quality`. -/
structure QualityReport where
  is_valid : Bool
  score : ℝ
  issues : List PoseIssue

/-- The centering and uprightness issues collected by `assess_pose_quality`
once the joint-count check has passed. -/
def poseIssues (l : LandmarkSet) : List PoseIssue :=
  (match l.getD 0 none with
   | some hd => if hd.x < 100 ∨ hd.x > 540 then [PoseIssue.headNotCentered] else []
   | none => []) ++
  (match l.getD 11 none, l.getD 23 none with
   | some sh, some hp => if |sh.y - hp.y| < 50 then [PoseIssue.standUpright] else []
   | _, _ => [])

/-- The quality score of `assess_pose_quality`: mean visibility over the
present landmarks, `0` when none are present. -/
def poseScore (l : LandmarkSet) : ℝ :=
  if (l.filterMap id).isEmpty then 0
  else listMean ((l.filterMap id).map (fun p => p.visibility))

/-- `assess_pose_quality` of the source, on an optional landmark list. -/
def assess_pose_quality (landmarks_2d : Option LandmarkSet) : QualityReport :=
  match landmarks_2d with
  | none => ⟨false, 0, [PoseIssue.noLandmarks]⟩
  | some l =>
    if (l.filter (fun x => x.isSome)).length < min_joints_visible then
      ⟨false, 0, [PoseIssue.notEnoughJoints]⟩
    else
      ⟨decide (poseIssues l = [] ∧ poseScore l > 0.7), poseScore l, poseIssues l⟩

/-- The per-view mutable state of the capture loop in `auto_capture_view`:
`pose_stable_count`, `auto_capture_started`, `valid_landmarks_list` and
`frame_count`. -/
structure GateState where
  stable_count : ℕ
  started : Bool
  frames : List LandmarkSet
  count : ℕ

/-- Initial state of a view's capture loop. -/
def initGate : GateState := ⟨0, false, [], 0⟩

/-- Python `landmarks_2d and all(l is not None for l in landmarks_2d)`:
the list is truthy (non-empty) and every joint is present. -/
def allJointsPresent (l : LandmarkSet) : Bool :=
  !l.isEmpty && l.all (fun x => x.isSome)

/-- One frame of input to the capture loop: the validity verdict of
`assess_pose_quality` and the (optional) extracted landmark list. -/
structure FrameObs where
  is_valid : Bool
  landmarks : Option LandmarkSet

/-- The stability-update block of the capture loop (the
`if is_valid: ... else: ...` statement): a valid frame increments
`pose_stable_count` and starts the burst once the threshold is reached;
an invalid frame stops any burst in progress, discards its accepted
frames, and zeroes the counters. -/
def stabilityUpdate (s : GateState) (is_valid : Bool) : GateState :=
  if is_valid then
    { s with stable_count := s.stable_count + 1,
             started := s.started ||
               decide (pose_stable_threshold ≤ s.stable_count + 1) }
  else
    { (if s.started then { s with started := false, count := 0, frames := [] }
       else s) with stable_count := 0 }

/-- The frame-collection block of the capture loop (the
`if auto_capture_started: ...` statement): while a burst is in progress, a
frame with every joint present is appended; reaching `frames_per_view`
accepted frames ends the view with the accepted list. -/
def captureUpdate (s : GateState) (landmarks : Option LandmarkSet) :
    GateState × Option (List LandmarkSet) :=
  if s.started then
    match landmarks with
    | some l =>
      if allJointsPresent l then
        let s2 : GateState := { s with frames := s.frames ++ [l], count := s.count + 1 }
        if frames_per_view ≤ s2.count then (s2, some s2.frames) else (s2, none)
      else (s, none)
    | none => (s, none)
  else (s, none)

/-- One iteration of the capture loop body of `auto_capture_view`
(lines 224-250 of the source): stability update then frame collection. -/
def stepFrame (s : GateState) (f : FrameObs) : GateState × Option (List LandmarkSet) :=
  captureUpdate (stabilityUpdate s f.is_valid) f.landmarks

/-- Running the capture loop over a stream of frames; the loop body
contains no time-based check, so the run ends only when the accepted
frame count is reached or the stream is exhausted. -/
def runGate : GateState → List FrameObs → GateState × Option (List LandmarkSet)
  | s, [] => (s, none)
  | s, f :: rest =>
    match stepFrame s f with
    | (s', some out) => (s', some out)
    | (s', none) => runGate s' rest

/-- The loop body of `_average_landmarks` for one joint index: the
`valid_points` subset and its componentwise mean, or absence when the
subset is empty. -/
def avgAt (landmarks_list : List LandmarkSet) (idx : ℕ) : Option Landmark :=
  let valid_points := landmarks_list.filterMap (fun fr => fr.getD idx none)
  if valid_points.isEmpty then none
  else some ⟨listMean (valid_points.map (fun p => p.x)),
             listMean (valid_points.map (fun p => p.y)),
             listMean (valid_points.map (fun p => p.z)),
             listMean (valid_points.map (fun p => p.visibility))⟩

/-- `_average_landmarks`: per joint index, the mean over the frames where
that joint is present; `None` on an empty input list. -/
def average_landmarks (landmarks_list : List LandmarkSet) : Option LandmarkSet :=
  match landmarks_list with
  | [] => none
  | f0 :: rest =>
    some ((List.range f0.length).map (avgAt (f0 :: rest)))

/-- One iteration's worth of external input to the full capture loop of
`auto_capture_view`: either `cap.read()` fails (`readFail`, breaking the
loop before the frame is processed), or a frame is processed and then the
end-of-iteration `waitKey` sees no key, the skip key `s`, or the quit key
`q`. -/
inductive CaptureEvent where
  | frame (f : FrameObs)
  | frameKeyS (f : FrameObs)
  | frameKeyQ (f : FrameObs)
  | readFail

/-- The return statement after the loop (lines 284-288 of the source):
`if valid_landmarks_list: return True, averaged else: return False, None`
— success with the averaged burst whenever the accepted list is
non-empty, however many frames it holds. -/
def finishView (frames : List LandmarkSet) : Bool × Option LandmarkSet :=
  if frames.isEmpty then (false, none) else (true, average_landmarks frames)

/-- The full capture loop of `auto_capture_view` over a stream of inputs:
result `none` means the stream ended with the loop still running; the
loop returns on a failed read (break, then `finishView`), on reaching
`frames_per_view` accepted frames (break inside the iteration, before the
key check), on `s` (break, then `finishView` of whatever was accepted),
or on `q` (`return False, None` regardless of the buffer). -/
def runCapture : GateState → List CaptureEvent → GateState × Option (Bool × Option LandmarkSet)
  | s, [] => (s, none)
  | s, CaptureEvent.readFail :: _ => (s, some (finishView s.frames))
  | s, CaptureEvent.frame f :: rest =>
    match stepFrame s f with
    | (s', some out) => (s', some (finishView out))
    | (s', none) => runCapture s' rest
  | s, CaptureEvent.frameKeyS f :: _ =>
    match stepFrame s f with
    | (s', some out) => (s', some (finishView out))
    | (s', none) => (s', some (finishView s'.frames))
  | s, CaptureEvent.frameKeyQ f :: _ =>
    match stepFrame s f with
    | (s', some out) => (s', some (finishView out))
    | (s', none) => (s', some (false, none))

/-- The loop body of `triangulate_4view` for one joint index: the
elementwise mean of the four views' positions when the joint is present
in all of them (confidence dropped), absent otherwise. -/
def triAt (fl ll bl rl : LandmarkSet) (idx : ℕ) : Option Point3 :=
  match fl.getD idx none, ll.getD idx none, bl.getD idx none, rl.getD idx none with
  | some pf, some pl, some pb, some pr =>
    some ⟨(pf.x + pl.x + pb.x + pr.x) / 4,
          (pf.y + pl.y + pb.y + pr.y) / 4,
          (pf.z + pl.z + pb.z + pr.z) / 4⟩
  | _, _, _, _ => none

/-- `triangulate_4view`: fails unless all four views are truthy (present
and non-empty, mirroring Python `if not all([front, left, back, right])`);
per joint index, `triAt`. -/
def triangulate_4view (front left back right : Option LandmarkSet) :
    Option (List (Option Point3)) :=
  match front, left, back, right with
  | some fl, some ll, some bl, some rl =>
    if fl.isEmpty || ll.isEmpty || bl.isEmpty || rl.isEmpty then none
    else some ((List.range fl.length).map (triAt fl ll bl rl))
  | _, _, _, _ => none

/-- One entry of `self.CIRCUMFERENCE_POINTS`: the two joint indices and
the width-to-circumference multiplier (`"ratio"` in the source; the
display-only `"description"` string is not modelled). -/
structure CircCfg where
  idx1 : ℕ
  idx2 : ℕ
  mult : ℝ

/-- The static calibration table `self.CIRCUMFERENCE_POINTS`. -/
def CIRCUMFERENCE_POINTS : List (String × CircCfg) :=
  [("chest", ⟨11, 12, 1.30⟩),
   ("waist", ⟨23, 24, 1.35⟩),
   ("hip", ⟨23, 24, 1.35⟩),
   ("biceps_left", ⟨11, 13, 1.2⟩),
   ("biceps_right", ⟨12, 14, 1.2⟩),
   ("forearm_left", ⟨13, 15, 1.15⟩),
   ("forearm_right", ⟨14, 16, 1.15⟩),
   ("thigh_left", ⟨23, 25, 1.20⟩),
   ("thigh_right", ⟨24, 26, 1.20⟩),
   ("calf_left", ⟨25, 27, 1.15⟩),
   ("calf_right", ⟨26, 28, 1.15⟩)]

/-- The scale-factor computation of `calculate_circumference_only`: when
the head-top joint (index 0) and the foot joint (index 29) are present
and at strictly positive distance, `user_height_cm / distance`, and `1.0`
otherwise. -/
def scale_factor (landmarks_3d : List (Option Point3)) (user_height_cm : ℝ) : ℝ :=
  match landmarks_3d.getD 0 none, landmarks_3d.getD 29 none with
  | some p0, some p29 =>
    if dist3 p0 p29 > 0 then user_height_cm / dist3 p0 p29 else 1
  | _, _ => 1

/-- One iteration of the measurement loop of `calculate_circumference_only`:
the measurement is produced only when both indices are in bounds and both
joints are present. -/
def measureOne (landmarks_3d : List (Option Point3)) (scale : ℝ) (cfg : CircCfg) :
    Option ℝ :=
  if cfg.idx1 < landmarks_3d.length ∧ cfg.idx2 < landmarks_3d.length then
    match landmarks_3d.getD cfg.idx1 none, landmarks_3d.getD cfg.idx2 none with
    | some p1, some p2 => some (round2 (dist3 p1 p2 * cfg.mult * scale))
    | _, _ => none
  else none

/-- The measurement dict built by `calculate_circumference_only`, as an
association list in table order (the table's names are distinct). -/
def calcMeasurements (landmarks_3d : List (Option Point3)) (user_height_cm : ℝ) :
    List (String × ℝ) :=
  CIRCUMFERENCE_POINTS.filterMap (fun p =>
    (measureOne landmarks_3d (scale_factor landmarks_3d user_height_cm) p.2).map
      (fun v => (p.1, v)))

/-- `calculate_circumference_only` including its `None` guard. -/
def calculate_circumference_only (landmarks_3d : Option (List (Option Point3)))
    (user_height_cm : ℝ) : Option (List (String × ℝ)) :=
  match landmarks_3d with
  | none => none
  | some lm => some (calcMeasurements lm user_height_cm)

/-- Python dict key lookup on an association list (first match wins; the
modelled dicts all have distinct keys). -/
def dictFind {β : Type} (name : String) : List (String × β) → Option β
  | [] => none
  | (k, v) :: rest => if k = name then some v else dictFind name rest

/-- One entry of `CircumferenceAnalyzer.CIRCUMFERENCE_STANDARDS`. -/
structure CircStandard where
  min : ℝ
  max : ℝ
  target : ℝ

/-- `CircumferenceAnalyzer.CIRCUMFERENCE_STANDARDS` of circumference_utils.py. -/
def CIRCUMFERENCE_STANDARDS : List (String × CircStandard) :=
  [("chest", ⟨75, 120, 95⟩),
   ("waist", ⟨60, 110, 80⟩),
   ("hip", ⟨85, 130, 100⟩),
   ("arm_bicep", ⟨22, 38, 30⟩),
   ("thigh_upper", ⟨40, 70, 55⟩),
   ("calf", ⟨30, 45, 38⟩)]

/-- The dict returned by `validate_circumference` (the interpolated parts
of the message strings are elided). -/
structure ValidationResult where
  valid : Bool
  message : String
  status : Option String
  diff_from_target : Option ℝ

/-- `CircumferenceAnalyzer.validate_circumference` of circumference_utils.py. -/
def validate_circumference (measurement_name : String) (value_cm : ℝ) :
    ValidationResult :=
  match dictFind measurement_name CIRCUMFERENCE_STANDARDS with
  | none => ⟨true, "No standard available", none, none⟩
  | some std =>
    if value_cm < std.min then ⟨false, "Below minimum", some "too_small", none⟩
    else if value_cm > std.max then ⟨false, "Above maximum", some "too_large", none⟩
    else
      ⟨true, "Within range",
       some (if |value_cm - std.target| < 5 then "ideal"
             else if value_cm - std.target > 0 then "above_target"
             else "below_target"),
       some (round2 (value_cm - std.target))⟩

/-- `MEASUREMENTS_TO_CAPTURE` of config.py. -/
def MEASUREMENTS_TO_CAPTURE : List String :=
  ["chest", "waist", "hip", "biceps_left", "biceps_right", "forearm_left",
   "forearm_right", "thigh_left", "thigh_right", "calf_left", "calf_right"]

/-- Invariant of the capture loop state: the frame counter mirrors the
buffer length, the buffer is not yet full, and every accepted frame has
all joints present. -/
def GateInv (s : GateState) : Prop :=
  s.frames.length = s.count ∧ s.count < frames_per_view ∧
  ∀ l ∈ s.frames, allJointsPresent l = true

/-- Concrete head-top point used by witnesses. -/
def p0w : Point3 := ⟨0, 0, 0⟩

/-- Concrete foot point used by witnesses (distance 5 from `p0w`). -/
def p29w : Point3 := ⟨3, 4, 0⟩

/-- A concrete combined landmark list with joints 0 and 29 present. -/
def lm30 : List (Option Point3) :=
  some p0w :: (List.replicate 28 none ++ [some p29w])

/-- A concrete present landmark used by witnesses. -/
def lmW : Landmark := ⟨0, 0, 0, 1⟩

/-- A concrete 33-joint landmark set with every joint present. -/
def fullSet33 : LandmarkSet := List.replicate 33 (some lmW)

/-- A concrete capturing gate state used by witnesses. -/
def sCap : GateState := ⟨20, true, [], 0⟩

/-- A concrete valid frame with every joint present. -/
def fGood : FrameObs := ⟨true, some fullSet33⟩

/-- A concrete input stream: 15 valid all-present frames (starting the
burst and accepting two frames by the 16th) and then the skip key. -/
def evsPartial : List CaptureEvent :=
  List.replicate 15 (CaptureEvent.frame fGood) ++ [CaptureEvent.frameKeyS fGood]

/-- A concrete two-frame burst (joint 0 present in one frame of two). -/
def avgFramesW : List LandmarkSet := [[some lmW], [none]]

-- ======================================================================
-- Helper lemmas
-- ======================================================================

lemma captureUpdate_fst_stable (s : GateState) (lm : Option LandmarkSet) :
    ((captureUpdate s lm).1).stable_count = s.stable_count := by
  unfold captureUpdate
  by_cases hs : s.started
  · cases lm with
    | none => simp [hs]
    | some l =>
      by_cases hp : allJointsPresent l
      · simp only [hs, hp, if_true]
        split <;> rfl
      · simp [hs, hp]
  · simp [hs]

lemma captureUpdate_not_started (s : GateState) (lm : Option LandmarkSet)
    (h : s.started = false) : captureUpdate s lm = (s, none) := by
  unfold captureUpdate
  simp [h]

/-- C2: every frame with a valid quality report increments `stable_count`;
every invalid frame zeroes `stable_count`, leaves the gate not capturing,
and — when a burst was in progress — discards the whole accepted buffer. -/
theorem gate_invalid_frame_resets (s : GateState) (f : FrameObs) :
    (f.is_valid = true → ((stepFrame s f).1).stable_count = s.stable_count + 1)
    ∧ (f.is_valid = false →
        ((stepFrame s f).1).stable_count = 0
        ∧ ((stepFrame s f).1).started = false
        ∧ (s.started = true →
            ((stepFrame s f).1).frames = [] ∧ ((stepFrame s f).1).count = 0)) := by
  constructor
  · intro hv
    rw [stepFrame, captureUpdate_fst_stable]
    simp [stabilityUpdate, hv]
  · intro hv
    have hsu : (stabilityUpdate s f.is_valid).started = false := by
      rw [hv]; unfold stabilityUpdate
      by_cases hs : s.started <;> simp [hs]
    rw [stepFrame, captureUpdate_not_started _ _ hsu]
    refine ⟨?_, hsu, ?_⟩
    · rw [hv]; unfold stabilityUpdate
      by_cases hs : s.started <;> simp [hs]
    · intro hst
      rw [hv]; unfold stabilityUpdate
      simp [hst]

/-- Witness for C2 at a concrete capturing state and invalid frame. -/
theorem gate_invalid_frame_resets_witness :
    ((stepFrame ⟨5, true, [[none]], 1⟩ ⟨false, none⟩).1).stable_count = 0
    ∧ ((stepFrame ⟨5, true, [[none]], 1⟩ ⟨false, none⟩).1).frames = [] := by
  have h := gate_invalid_frame_resets ⟨5, true, [[none]], 1⟩ ⟨false, none⟩
  exact ⟨(h.2 rfl).1, ((h.2 rfl).2.2 rfl).1⟩

/-- C6: the capture loop contains no timeout: a stream consisting of any
number of frames with no valid pose leaves the gate in its initial
waiting state and never produces an abort or a result (the source's
`AUTO_CAPTURE_TIMEOUT` constant is never consulted by the loop). -/
theorem gate_never_times_out (n : ℕ) :
    runGate initGate (List.replicate n ⟨false, none⟩) = (initGate, none) := by
  induction n with
  | zero => rfl
  | succ k ih =>
    have hstep : stepFrame initGate ⟨false, none⟩ = (initGate, none) := rfl
    rw [List.replicate_succ, runGate, hstep]
    exact ih

lemma captureUpdate_append_full (s : GateState) (l : LandmarkSet)
    (hs : s.started = true) (hjp : allJointsPresent l = true) :
    captureUpdate s (some l) =
      (({ s with frames := s.frames ++ [l], count := s.count + 1 } : GateState),
       if frames_per_view ≤ s.count + 1 then some (s.frames ++ [l]) else none) := by
  by_cases hc : frames_per_view ≤ s.count + 1 <;> simp [captureUpdate, hs, hjp, hc]

lemma captureUpdate_skip (s : GateState) (l : LandmarkSet)
    (hs : s.started = true) (hjp : allJointsPresent l = false) :
    captureUpdate s (some l) = (s, none) := by
  simp [captureUpdate, hs, hjp]

lemma captureUpdate_no_landmarks (s : GateState) :
    captureUpdate s none = (s, none) := by
  unfold captureUpdate
  split <;> rfl

lemma stabilityUpdate_inv (s : GateState) (v : Bool) (h : GateInv s) :
    GateInv (stabilityUpdate s v) := by
  obtain ⟨h1, h2, h3⟩ := h
  by_cases hv : v = true
  · have heq : stabilityUpdate s v =
        { s with stable_count := s.stable_count + 1,
                 started := s.started ||
                   decide (pose_stable_threshold ≤ s.stable_count + 1) } := by
      simp [stabilityUpdate, hv]
    rw [heq]
    exact ⟨h1, h2, h3⟩
  · by_cases hs : s.started = true
    · have heq : stabilityUpdate s v = ⟨0, false, [], 0⟩ := by
        simp [stabilityUpdate, hv, hs]
      rw [heq]
      refine ⟨rfl, by decide, ?_⟩
      intro l hl
      simp at hl
    · have heq : stabilityUpdate s v = { s with stable_count := 0 } := by
        simp [stabilityUpdate, hv, hs]
      rw [heq]
      exact ⟨h1, h2, h3⟩

lemma stepFrame_inv (s : GateState) (f : FrameObs) (h : GateInv s) :
    (∀ s1, stepFrame s f = (s1, none) → GateInv s1)
    ∧ (∀ s1 out, stepFrame s f = (s1, some out) →
        out.length = frames_per_view ∧ ∀ l ∈ out, allJointsPresent l = true) := by
  have hsu := stabilityUpdate_inv s f.is_valid h
  rw [stepFrame]
  obtain ⟨t1, t2, t3⟩ := hsu
  have h30 : frames_per_view = 30 := rfl
  by_cases hts : (stabilityUpdate s f.is_valid).started = true
  · cases hlm : f.landmarks with
    | none =>
      rw [captureUpdate_no_landmarks]
      refine ⟨?_, ?_⟩
      · intro s1 heq
        injection heq with he1 _
        rw [← he1]
        exact ⟨t1, t2, t3⟩
      · intro s1 out heq
        injection heq with _ he2
        cases he2
    | some l =>
      by_cases hjp : allJointsPresent l = true
      · rw [captureUpdate_append_full _ _ hts hjp]
        by_cases hc : frames_per_view ≤ (stabilityUpdate s f.is_valid).count + 1
        · refine ⟨?_, ?_⟩
          · intro s1 heq
            injection heq with _ he2
            rw [if_pos hc] at he2
            cases he2
          · intro s1 out heq
            injection heq with _ he2
            rw [if_pos hc] at he2
            injection he2 with he3
            rw [← he3]
            constructor
            · rw [List.length_append, t1]
              simp only [List.length_singleton]
              omega
            · intro l' hl'
              rcases List.mem_append.mp hl' with hmem | hmem
              · exact t3 l' hmem
              · rw [List.mem_singleton.mp hmem]
                exact hjp
        · refine ⟨?_, ?_⟩
          · intro s1 heq
            injection heq with he1 _
            rw [← he1]
            refine ⟨?_, ?_, ?_⟩
            · show ((stabilityUpdate s f.is_valid).frames ++ [l]).length =
                (stabilityUpdate s f.is_valid).count + 1
              rw [List.length_append, t1, List.length_singleton]
            · show (stabilityUpdate s f.is_valid).count + 1 < frames_per_view
              omega
            · show ∀ l' ∈ (stabilityUpdate s f.is_valid).frames ++ [l],
                allJointsPresent l' = true
              intro l' hl'
              rcases List.mem_append.mp hl' with hmem | hmem
              · exact t3 l' hmem
              · rw [List.mem_singleton.mp hmem]
                exact hjp
          · intro s1 out heq
            injection heq with _ he2
            rw [if_neg hc] at he2
            cases he2
      · rw [captureUpdate_skip _ _ hts (Bool.not_eq_true _ ▸ hjp : allJointsPresent l = false)]
        refine ⟨?_, ?_⟩
        · intro s1 heq
          injection heq with he1 _
          rw [← he1]
          exact ⟨t1, t2, t3⟩
        · intro s1 out heq
          injection heq with _ he2
          cases he2
  · rw [captureUpdate_not_started _ _ (Bool.not_eq_true _ ▸ hts)]
    refine ⟨?_, ?_⟩
    · intro s1 heq
      injection heq with he1 _
      rw [← he1]
      exact ⟨t1, t2, t3⟩
    · intro s1 out heq
      injection heq with _ he2
      cases he2

lemma runGate_inv : ∀ (evs : List FrameObs) (s : GateState), GateInv s →
    ∀ s' out, runGate s evs = (s', some out) →
      out.length = frames_per_view ∧ ∀ l ∈ out, allJointsPresent l = true := by
  intro evs
  induction evs with
  | nil =>
    intro s _ s' out hrun
    rw [runGate] at hrun
    injection hrun with _ he2
    cases he2
  | cons f rest ih =>
    intro s h s' out hrun
    rw [runGate] at hrun
    cases hst : stepFrame s f with
    | mk s1 o =>
      cases o with
      | some out1 =>
        rw [hst] at hrun
        simp only at hrun
        injection hrun with he1 he2
        injection he2 with he3
        rw [← he3]
        exact (stepFrame_inv s f h).2 s1 out1 hst
      | none =>
        rw [hst] at hrun
        exact ih s1 ((stepFrame_inv s f h).1 s1 hst) s' out hrun

lemma runCapture_frames_ret :
    ∀ (fs : List FrameObs) (s s' : GateState) (r : Bool × Option LandmarkSet),
      runCapture s (fs.map CaptureEvent.frame) = (s', some r) →
      ∃ out, runGate s fs = (s', some out) ∧ r = finishView out := by
  intro fs
  induction fs with
  | nil =>
    intro s s' r h
    rw [List.map_nil, runCapture] at h
    injection h with _ h2
    cases h2
  | cons f rest ih =>
    intro s s' r h
    rw [List.map_cons, runCapture] at h
    cases hst : stepFrame s f with
    | mk s1 o =>
      rw [hst] at h
      cases o with
      | some out1 =>
        injection h with he1 he2
        injection he2 with he3
        refine ⟨out1, ?_, he3.symm⟩
        rw [runGate, hst]
        show (s1, some out1) = (s', some out1)
        rw [he1]
      | none =>
        obtain ⟨out, hrg, hr⟩ := ih s1 s' r h
        refine ⟨out, ?_, hr⟩
        rw [runGate, hst]
        exact hrg

/-- C5 (amended): while a burst is in progress, a valid 33-joint frame is
appended to the accepted buffer exactly when every joint is present (a
frame with a missing joint is skipped without touching the buffer, the
counter, or the capturing flag); the in-loop completion check fires
exactly when the accepted count reaches `frames_per_view` (30); a run of
the full loop driven by frame events alone that returns did so through
that check and returns success with the average of exactly 30 all-present
frames; but the skip-key exit returns success with whatever non-empty
partial buffer was accepted, so a successful view result is not always a
burst of 30. -/
theorem capture_append_done_and_partial_skip :
    (∀ (s : GateState) (f : FrameObs) (l : LandmarkSet),
        s.started = true → f.is_valid = true → f.landmarks = some l →
        l.length = 33 →
        (((stepFrame s f).1).frames = s.frames ++ [l] ↔
          l.all (fun x => x.isSome) = true)
        ∧ (l.all (fun x => x.isSome) = false →
            ((stepFrame s f).1).frames = s.frames
            ∧ ((stepFrame s f).1).count = s.count
            ∧ ((stepFrame s f).1).started = true
            ∧ (stepFrame s f).2 = none))
    ∧ (∀ (s : GateState) (f : FrameObs) (l : LandmarkSet),
        s.started = true → f.is_valid = true → f.landmarks = some l →
        allJointsPresent l = true →
        ((stepFrame s f).2 = some (s.frames ++ [l]) ↔
          frames_per_view ≤ s.count + 1))
    ∧ (∀ (fs : List FrameObs) (s' : GateState) (r : Bool × Option LandmarkSet),
        runCapture initGate (fs.map CaptureEvent.frame) = (s', some r) →
        ∃ out, out.length = frames_per_view ∧ (∀ l ∈ out, allJointsPresent l = true) ∧
          r = (true, average_landmarks out))
    ∧ (∀ (s s' : GateState) (f : FrameObs),
        stepFrame s f = (s', none) → s'.frames ≠ [] →
        runCapture s [CaptureEvent.frameKeyS f] =
          (s', some (true, average_landmarks s'.frames))) := by
  refine ⟨?_, ?_, ?_, ?_⟩
  case refine_2 =>
    intro s f l hs hv hl hjp
    have hsu : stabilityUpdate s f.is_valid =
        { s with stable_count := s.stable_count + 1, started := true } := by
      rw [hv]; unfold stabilityUpdate; simp [hs]
    rw [stepFrame, hsu, hl, captureUpdate_append_full _ _ rfl hjp]
    by_cases hc : frames_per_view ≤ s.count + 1 <;> simp [hc]
  case refine_4 =>
    intro s s' f hst hne
    have hE : s'.frames.isEmpty = false := by
      cases hcase : s'.frames with
      | nil => exact absurd hcase hne
      | cons a t => rfl
    rw [runCapture, hst]
    show (s', some (finishView s'.frames)) = _
    rw [finishView]
    simp only [hE, Bool.false_eq_true, if_false]
  · intro s f l hs hv hl hlen
    have hsu : stabilityUpdate s f.is_valid =
        { s with stable_count := s.stable_count + 1, started := true } := by
      rw [hv]; unfold stabilityUpdate; simp [hs]
    have hne : l.isEmpty = false := by
      cases l with
      | nil => simp at hlen
      | cons a t => rfl
    rw [stepFrame, hsu, hl]
    by_cases hall : l.all (fun x => x.isSome) = true
    · have hjp : allJointsPresent l = true := by
        simp [allJointsPresent, hne, hall]
      rw [captureUpdate_append_full _ _ rfl hjp]
      constructor
      · exact ⟨fun _ => hall, fun _ => rfl⟩
      · intro hfalse
        rw [hall] at hfalse
        cases hfalse
    · have hall' : l.all (fun x => x.isSome) = false := Bool.not_eq_true _ ▸ hall
      have hjp : allJointsPresent l = false := by
        simp [allJointsPresent, hne, hall']
      rw [captureUpdate_skip _ _ rfl hjp]
      constructor
      · constructor
        · intro heq
          exfalso
          have hlength := congrArg List.length heq
          simp at hlength
        · intro htrue
          rw [htrue] at hall'
          cases hall'
      · intro _
        exact ⟨rfl, rfl, rfl, rfl⟩
  · intro fs s' r h
    obtain ⟨out, hrg, hr⟩ := runCapture_frames_ret fs initGate s' r h
    have hinit : GateInv initGate := by
      refine ⟨rfl, by decide, ?_⟩
      intro l hl
      simp [initGate] at hl
    have hinv := runGate_inv fs initGate hinit s' out hrg
    refine ⟨out, hinv.1, hinv.2, ?_⟩
    have hne : out.isEmpty = false := by
      cases hcase : out with
      | nil =>
        have h0 := hinv.1
        rw [hcase] at h0
        exact absurd h0 (by decide)
      | cons a t => rfl
    rw [hr, finishView]
    simp only [hne, Bool.false_eq_true, if_false]

/-- Witness for C5 at a concrete capturing state and all-present frame. -/
theorem capture_append_done_and_partial_skip_witness :
    ((stepFrame sCap ⟨true, some fullSet33⟩).1).frames = sCap.frames ++ [fullSet33] ↔
      fullSet33.all (fun x => x.isSome) = true := by
  have h := capture_append_done_and_partial_skip
  exact (h.1 sCap ⟨true, some fullSet33⟩ fullSet33 rfl rfl rfl (by simp [fullSet33])).1

/-- Counterexample to C5 as frozen: pressing the skip key after two
frames of a burst were accepted makes `auto_capture_view` return success
with a burst of length 2, so a successful view result is not always a
burst of exactly 30 frames. -/
theorem capture_thirty_claim_counterexample :
    runCapture initGate evsPartial =
      (⟨16, true, [fullSet33, fullSet33], 2⟩,
       some (true, average_landmarks [fullSet33, fullSet33]))
    ∧ ([fullSet33, fullSet33] : List LandmarkSet).length ≠ frames_per_view :=
  ⟨rfl, by decide⟩

lemma getD_map_range {α : Type} (g : ℕ → α) (d : α) (N i : ℕ) (h : i < N) :
    ((List.range N).map g).getD i d = g i := by
  rw [List.getD_eq_getElem?_getD, List.getElem?_map, List.getElem?_range h]
  rfl

/-- C3: on a non-empty burst of equal-length frames, `average_landmarks`
returns a list of the same length; a joint absent in every frame is
absent in the output, and a joint present in some subset of frames is
the componentwise mean over exactly that subset. -/
theorem average_landmarks_spec (frames : List LandmarkSet) (N : ℕ)
    (hne : frames ≠ []) (hlen : ∀ f ∈ frames, f.length = N) :
    ∃ out, average_landmarks frames = some out ∧ out.length = N ∧
      ∀ i, i < N →
        ((∀ fr ∈ frames, fr.getD i none = none) → out.getD i none = none)
        ∧ (frames.filterMap (fun fr => fr.getD i none) ≠ [] →
            out.getD i none =
              some ⟨listMean ((frames.filterMap (fun fr => fr.getD i none)).map (fun p => p.x)),
                    listMean ((frames.filterMap (fun fr => fr.getD i none)).map (fun p => p.y)),
                    listMean ((frames.filterMap (fun fr => fr.getD i none)).map (fun p => p.z)),
                    listMean ((frames.filterMap (fun fr => fr.getD i none)).map
                      (fun p => p.visibility))⟩) := by
  cases frames with
  | nil => exact absurd rfl hne
  | cons f0 rest =>
    have hN : f0.length = N := hlen f0 (List.mem_cons_self f0 rest)
    refine ⟨_, rfl, ?_, ?_⟩
    · simp [hN]
    · intro i hi
      have hi' : i < f0.length := by rw [hN]; exact hi
      rw [getD_map_range _ none f0.length i hi']
      constructor
      · intro habs
        have hempty : (f0 :: rest).filterMap (fun fr => fr.getD i none) = [] :=
          List.filterMap_eq_nil_iff.mpr habs
        rw [avgAt, hempty]
        rfl
      · intro hnonempty
        have hE : ((f0 :: rest).filterMap (fun fr => fr.getD i none)).isEmpty = false := by
          cases hcase : (f0 :: rest).filterMap (fun fr => fr.getD i none) with
          | nil => exact absurd hcase hnonempty
          | cons a t => rfl
        rw [avgAt]
        simp only [hE, Bool.false_eq_true, if_false]

/-- Witness for C3 at a concrete two-frame burst of length-1 frames. -/
theorem average_landmarks_spec_witness :
    ∃ out, average_landmarks avgFramesW = some out ∧ out.length = 1 ∧
      ∀ i, i < 1 →
        ((∀ fr ∈ avgFramesW, fr.getD i none = none) → out.getD i none = none)
        ∧ (avgFramesW.filterMap (fun fr => fr.getD i none) ≠ [] →
            out.getD i none =
              some ⟨listMean ((avgFramesW.filterMap (fun fr => fr.getD i none)).map (fun p => p.x)),
                    listMean ((avgFramesW.filterMap (fun fr => fr.getD i none)).map (fun p => p.y)),
                    listMean ((avgFramesW.filterMap (fun fr => fr.getD i none)).map (fun p => p.z)),
                    listMean ((avgFramesW.filterMap (fun fr => fr.getD i none)).map
                      (fun p => p.visibility))⟩) := by
  apply average_landmarks_spec avgFramesW 1
  · intro hcontra
    simp [avgFramesW] at hcontra
  · intro f hf
    rcases List.mem_cons.mp hf with h | h
    · rw [h]; rfl
    · rcases List.mem_cons.mp h with h2 | h2
      · rw [h2]; rfl
      · simp at h2

/-- C4: the view combiner returns nothing when any of the four views is
missing; on four present equal-length non-empty views it returns a list
of the same length in which a joint present in all four views is the
elementwise mean of the four positions and a joint missing in any view
(so also one present in only 3 of 4) is absent. -/
theorem triangulate_requires_all_views :
    (∀ l b r, triangulate_4view none l b r = none)
    ∧ (∀ f b r, triangulate_4view f none b r = none)
    ∧ (∀ f l r, triangulate_4view f l none r = none)
    ∧ (∀ f l b, triangulate_4view f l b none = none)
    ∧ (∀ (fl ll bl rl : LandmarkSet) (N : ℕ), 0 < N →
        fl.length = N → ll.length = N → bl.length = N → rl.length = N →
        ∃ out, triangulate_4view (some fl) (some ll) (some bl) (some rl) = some out
          ∧ out.length = N
          ∧ ∀ i, i < N →
              (∀ pf pl pb pr, fl.getD i none = some pf → ll.getD i none = some pl →
                  bl.getD i none = some pb → rl.getD i none = some pr →
                  out.getD i none = some ⟨(pf.x + pl.x + pb.x + pr.x) / 4,
                                          (pf.y + pl.y + pb.y + pr.y) / 4,
                                          (pf.z + pl.z + pb.z + pr.z) / 4⟩)
              ∧ ((fl.getD i none = none ∨ ll.getD i none = none ∨
                  bl.getD i none = none ∨ rl.getD i none = none) →
                  out.getD i none = none)) := by
  refine ⟨fun l b r => rfl, ?_, ?_, ?_, ?_⟩
  · intro f b r
    cases f <;> rfl
  · intro f l r
    cases f <;> cases l <;> rfl
  · intro f l b
    cases f <;> cases l <;> cases b <;> rfl
  · intro fl ll bl rl N hN h1 h2 h3 h4
    have hflE : fl.isEmpty = false := by
      cases fl
      · rw [List.length_nil] at h1; omega
      · rfl
    have hllE : ll.isEmpty = false := by
      cases ll
      · rw [List.length_nil] at h2; omega
      · rfl
    have hblE : bl.isEmpty = false := by
      cases bl
      · rw [List.length_nil] at h3; omega
      · rfl
    have hrlE : rl.isEmpty = false := by
      cases rl
      · rw [List.length_nil] at h4; omega
      · rfl
    have hsome : triangulate_4view (some fl) (some ll) (some bl) (some rl) =
        some ((List.range fl.length).map (triAt fl ll bl rl)) := by
      show (if fl.isEmpty || ll.isEmpty || bl.isEmpty || rl.isEmpty then none
            else some ((List.range fl.length).map (triAt fl ll bl rl))) = _
      rw [hflE, hllE, hblE, hrlE]
      rfl
    refine ⟨_, hsome, by simp [h1], ?_⟩
    intro i hi
    have hi' : i < fl.length := by rw [h1]; exact hi
    rw [getD_map_range _ none fl.length i hi']
    constructor
    · intro pf pl pb pr hpf hpl hpb hpr
      rw [triAt, hpf, hpl, hpb, hpr]
    · intro habs
      rcases habs with h | h | h | h
      · rw [triAt, h]
      · rw [triAt, h]
        cases fl.getD i none <;> rfl
      · rw [triAt, h]
        cases fl.getD i none <;> cases ll.getD i none <;> rfl
      · rw [triAt, h]
        cases fl.getD i none <;> cases ll.getD i none <;> cases bl.getD i none <;> rfl

/-- Witness for C4 at four concrete singleton views. -/
theorem triangulate_requires_all_views_witness :
    ∃ out, triangulate_4view (some [some lmW]) (some [some lmW]) (some [some lmW])
        (some [some lmW]) = some out
      ∧ out.length = 1
      ∧ ∀ i, i < 1 →
          (∀ pf pl pb pr, ([some lmW] : LandmarkSet).getD i none = some pf →
              ([some lmW] : LandmarkSet).getD i none = some pl →
              ([some lmW] : LandmarkSet).getD i none = some pb →
              ([some lmW] : LandmarkSet).getD i none = some pr →
              out.getD i none = some ⟨(pf.x + pl.x + pb.x + pr.x) / 4,
                                      (pf.y + pl.y + pb.y + pr.y) / 4,
                                      (pf.z + pl.z + pb.z + pr.z) / 4⟩)
          ∧ ((([some lmW] : LandmarkSet).getD i none = none ∨
              ([some lmW] : LandmarkSet).getD i none = none ∨
              ([some lmW] : LandmarkSet).getD i none = none ∨
              ([some lmW] : LandmarkSet).getD i none = none) →
              out.getD i none = none) :=
  triangulate_requires_all_views.2.2.2.2 [some lmW] [some lmW] [some lmW] [some lmW] 1
    (by decide) rfl rfl rfl rfl

lemma dictFind_eq_none_of_not_mem {β : Type} (name : String) :
    ∀ l : List (String × β), name ∉ l.map Prod.fst → dictFind name l = none := by
  intro l
  induction l with
  | nil => intro _; rfl
  | cons hd tl ih =>
    intro h
    rw [List.map_cons] at h
    have h1 : hd.1 ≠ name := fun he => h (he ▸ List.mem_cons_self _ _)
    have h2 : name ∉ tl.map Prod.fst := fun hm => h (List.mem_cons_of_mem _ hm)
    cases hd with
    | mk k v =>
      rw [dictFind, if_neg h1]
      exact ih h2

lemma keys_filterMap_measure_subset (lm : List (Option Point3)) (sc : ℝ)
    (tl : List (String × CircCfg)) (k : String)
    (hk : k ∈ (tl.filterMap
        (fun p => (measureOne lm sc p.2).map (fun v => (p.1, v)))).map Prod.fst) :
    k ∈ tl.map Prod.fst := by
  rw [List.mem_map] at hk
  obtain ⟨pair, hpair, hfst⟩ := hk
  rw [List.mem_filterMap] at hpair
  obtain ⟨p, hp, hmap⟩ := hpair
  cases hmo : measureOne lm sc p.2 with
  | none =>
    rw [hmo] at hmap
    simp at hmap
  | some v =>
    rw [hmo] at hmap
    simp only [Option.map_some', Option.some.injEq] at hmap
    rw [← hmap] at hfst
    exact List.mem_map.mpr ⟨p, hp, hfst⟩

lemma dictFind_filterMap_measure (lm : List (Option Point3)) (sc : ℝ) :
    ∀ (tbl : List (String × CircCfg)) (name : String) (cfg : CircCfg),
      (name, cfg) ∈ tbl → (tbl.map Prod.fst).Nodup →
      dictFind name (tbl.filterMap
          (fun p => (measureOne lm sc p.2).map (fun v => (p.1, v)))) =
        measureOne lm sc cfg := by
  intro tbl
  induction tbl with
  | nil =>
    intro name cfg hmem _
    exact absurd hmem (List.not_mem_nil _)
  | cons hd tl ih =>
    intro name cfg hmem hnd
    rw [List.map_cons, List.nodup_cons] at hnd
    obtain ⟨hnotin, hndtl⟩ := hnd
    rcases List.mem_cons.mp hmem with heq | hmemtl
    · have hn1 : hd.1 = name := by rw [← heq]
      have hn2 : hd.2 = cfg := by rw [← heq]
      cases hmo : measureOne lm sc hd.2 with
      | none =>
        rw [List.filterMap_cons_none (by rw [hmo]; rfl)]
        rw [← hn2, hmo]
        apply dictFind_eq_none_of_not_mem
        intro hmm
        exact hnotin (hn1 ▸ keys_filterMap_measure_subset lm sc tl name hmm)
      | some v =>
        rw [List.filterMap_cons_some (by rw [hmo]; rfl : _ = some (hd.1, v))]
        rw [dictFind, if_pos hn1, ← hn2, hmo]
    · have hname_tl : name ∈ tl.map Prod.fst :=
        List.mem_map.mpr ⟨(name, cfg), hmemtl, rfl⟩
      have hne : hd.1 ≠ name := fun h => hnotin (h ▸ hname_tl)
      cases hmo : measureOne lm sc hd.2 with
      | none =>
        rw [List.filterMap_cons_none (by rw [hmo]; rfl)]
        exact ih name cfg hmemtl hndtl
      | some v =>
        rw [List.filterMap_cons_some (by rw [hmo]; rfl : _ = some (hd.1, v))]
        rw [dictFind, if_neg hne]
        exact ih name cfg hmemtl hndtl

lemma table_key_unique :
    ∀ (tbl : List (String × CircCfg)), (tbl.map Prod.fst).Nodup →
      ∀ (n : String) (c₁ c₂ : CircCfg), (n, c₁) ∈ tbl → (n, c₂) ∈ tbl → c₁ = c₂ := by
  intro tbl
  induction tbl with
  | nil =>
    intro _ n c1 c2 h _
    exact absurd h (List.not_mem_nil _)
  | cons hd tl ih =>
    intro hnd n c1 c2 h1 h2
    rw [List.map_cons, List.nodup_cons] at hnd
    obtain ⟨hni, hndtl⟩ := hnd
    rcases List.mem_cons.mp h1 with e1 | m1 <;> rcases List.mem_cons.mp h2 with e2 | m2
    · exact congrArg Prod.snd (e1.trans e2.symm)
    · exfalso
      apply hni
      have hn : hd.1 = n := by rw [← e1]
      rw [hn]
      exact List.mem_map.mpr ⟨(n, c2), m2, rfl⟩
    · exfalso
      apply hni
      have hn : hd.1 = n := by rw [← e2]
      rw [hn]
      exact List.mem_map.mpr ⟨(n, c1), m1, rfl⟩
    · exact ih hndtl n c1 c2 m1 m2

lemma circ_points_keys_nodup : (CIRCUMFERENCE_POINTS.map Prod.fst).Nodup := by
  have hkeys : CIRCUMFERENCE_POINTS.map Prod.fst =
      ["chest", "waist", "hip", "biceps_left", "biceps_right", "forearm_left",
       "forearm_right", "thigh_left", "thigh_right", "calf_left", "calf_right"] := rfl
  rw [hkeys]
  decide

/-- C1: the scale factor is `H / d` when joints 0 and 29 are present at
strictly positive distance `d` and `1.0` otherwise, and every produced
measurement is `round2` of the joint-pair distance times the table
multiplier times the scale factor. -/
theorem circ_scale_and_values (lm : List (Option Point3)) (H : ℝ) (hH : 0 < H) :
    (∀ p0 p29, lm.getD 0 none = some p0 → lm.getD 29 none = some p29 →
        0 < dist3 p0 p29 → scale_factor lm H = H / dist3 p0 p29)
    ∧ ((¬ ∃ p0 p29, lm.getD 0 none = some p0 ∧ lm.getD 29 none = some p29 ∧
          0 < dist3 p0 p29) → scale_factor lm H = 1)
    ∧ (∀ name v, (name, v) ∈ calcMeasurements lm H →
        ∃ cfg, (name, cfg) ∈ CIRCUMFERENCE_POINTS ∧ ∃ p1 p2,
          lm.getD cfg.idx1 none = some p1 ∧ lm.getD cfg.idx2 none = some p2 ∧
          v = round2 (dist3 p1 p2 * cfg.mult * scale_factor lm H)) := by
  refine ⟨?_, ?_, ?_⟩
  · intro p0 p29 h0 h29 hd
    unfold scale_factor
    rw [h0, h29]
    show (if dist3 p0 p29 > 0 then H / dist3 p0 p29 else 1) = H / dist3 p0 p29
    rw [if_pos hd]
  · intro hne
    unfold scale_factor
    cases h0 : lm.getD 0 none with
    | none => cases lm.getD 29 none <;> rfl
    | some p0 =>
      cases h29 : lm.getD 29 none with
      | none => rfl
      | some p29 =>
        show (if dist3 p0 p29 > 0 then H / dist3 p0 p29 else 1) = 1
        rw [if_neg]
        intro hd
        exact hne ⟨p0, p29, h0, h29, hd⟩
  · intro name v hv
    rw [calcMeasurements, List.mem_filterMap] at hv
    obtain ⟨p, hp, hmap⟩ := hv
    cases hmo : measureOne lm (scale_factor lm H) p.2 with
    | none =>
      rw [hmo] at hmap
      simp at hmap
    | some w =>
      rw [hmo] at hmap
      simp only [Option.map_some', Option.some.injEq, Prod.mk.injEq] at hmap
      obtain ⟨hp1, hw⟩ := hmap
      rw [measureOne] at hmo
      by_cases hb : p.2.idx1 < lm.length ∧ p.2.idx2 < lm.length
      · rw [if_pos hb] at hmo
        cases hq1 : lm.getD p.2.idx1 none with
        | none =>
          rw [hq1] at hmo
          cases hq2 : lm.getD p.2.idx2 none <;> rw [hq2] at hmo <;> simp at hmo
        | some p1 =>
          cases hq2 : lm.getD p.2.idx2 none with
          | none =>
            rw [hq1, hq2] at hmo
            simp at hmo
          | some p2 =>
            rw [hq1, hq2] at hmo
            simp only [Option.some.injEq] at hmo
            refine ⟨p.2, ?_, p1, p2, hq1, hq2, ?_⟩
            · have hpeq : (name, p.2) = p := by rw [← hp1]
              rw [hpeq]
              exact hp
            · rw [← hw, ← hmo]
      · rw [if_neg hb] at hmo
        simp at hmo

/-- Witness for C1 at a concrete 30-joint list with head-top at the
origin and foot at distance 5. -/
theorem circ_scale_and_values_witness :
    scale_factor lm30 170 = 170 / dist3 p0w p29w := by
  have h := circ_scale_and_values lm30 170 (by norm_num)
  apply h.1 p0w p29w rfl rfl
  have hpos : (0 : ℝ) < (p0w.x - p29w.x) ^ 2 + (p0w.y - p29w.y) ^ 2 +
      (p0w.z - p29w.z) ^ 2 := by
    simp only [p0w, p29w]
    norm_num
  simpa [dist3] using Real.sqrt_pos.mpr hpos

/-- C7: a calibration entry whose joints are not both present contributes
no key at all to the measurement mapping. -/
theorem absent_joint_measurement_omitted (lm : List (Option Point3)) (H : ℝ)
    (name : String) (cfg : CircCfg)
    (hmem : (name, cfg) ∈ CIRCUMFERENCE_POINTS)
    (habs : lm.getD cfg.idx1 none = none ∨ lm.getD cfg.idx2 none = none) :
    dictFind name (calcMeasurements lm H) = none
    ∧ ∀ v : ℝ, (name, v) ∉ calcMeasurements lm H := by
  have hnone : measureOne lm (scale_factor lm H) cfg = none := by
    rw [measureOne]
    by_cases hb : cfg.idx1 < lm.length ∧ cfg.idx2 < lm.length
    · rw [if_pos hb]
      rcases habs with h | h
      · rw [h]
      · rw [h]
        cases lm.getD cfg.idx1 none <;> rfl
    · rw [if_neg hb]
  constructor
  · rw [calcMeasurements,
      dictFind_filterMap_measure lm _ CIRCUMFERENCE_POINTS name cfg hmem
        circ_points_keys_nodup]
    exact hnone
  · intro v hv
    rw [calcMeasurements, List.mem_filterMap] at hv
    obtain ⟨p, hp, hmap⟩ := hv
    cases hmo : measureOne lm (scale_factor lm H) p.2 with
    | none =>
      rw [hmo] at hmap
      simp at hmap
    | some w =>
      rw [hmo] at hmap
      simp only [Option.map_some', Option.some.injEq, Prod.mk.injEq] at hmap
      obtain ⟨hp1, _⟩ := hmap
      have hpeq : (name, p.2) = p := by rw [← hp1]
      have hpmem : (name, p.2) ∈ CIRCUMFERENCE_POINTS := by
        rw [hpeq]
        exact hp
      have hcfg : p.2 = cfg :=
        table_key_unique CIRCUMFERENCE_POINTS circ_points_keys_nodup name p.2 cfg
          hpmem hmem
      rw [hcfg, hnone] at hmo
      cases hmo

/-- Witness for C7: on the empty landmark list every joint is absent and
the chest key is missing from the result. -/
theorem absent_joint_measurement_omitted_witness :
    dictFind "chest" (calcMeasurements [] 170) = none
    ∧ ∀ v : ℝ, ("chest", v) ∉ calcMeasurements [] 170 :=
  absent_joint_measurement_omitted [] 170 "chest" ⟨11, 12, 1.30⟩
    (List.Mem.head _) (Or.inl rfl)

/-- C9: the waist and hip table entries carry the same joint pair
`(23, 24)` and the same 1.35 multiplier, so on every combined landmark
set and height the waist and hip results agree — both absent or both
present with equal values. -/
theorem waist_hip_coincide :
    dictFind "waist" CIRCUMFERENCE_POINTS = some ⟨23, 24, 1.35⟩
    ∧ dictFind "hip" CIRCUMFERENCE_POINTS = some ⟨23, 24, 1.35⟩
    ∧ ∀ (lm : List (Option Point3)) (H : ℝ),
        dictFind "waist" (calcMeasurements lm H) =
          dictFind "hip" (calcMeasurements lm H) := by
  refine ⟨rfl, rfl, ?_⟩
  intro lm H
  rw [calcMeasurements,
    dictFind_filterMap_measure lm _ CIRCUMFERENCE_POINTS "waist" ⟨23, 24, 1.35⟩
      (List.Mem.tail _ (List.Mem.head _)) circ_points_keys_nodup,
    dictFind_filterMap_measure lm _ CIRCUMFERENCE_POINTS "hip" ⟨23, 24, 1.35⟩
      (List.Mem.tail _ (List.Mem.tail _ (List.Mem.head _))) circ_points_keys_nodup]

lemma extract_filterMap (raw : List Landmark) (w h : ℝ) :
    (extract_landmarks_2d raw w h).filterMap id =
      (raw.filter (fun p => decide (p.visibility > min_visibility_score))).map
        (fun p => (⟨p.x * w, p.y * h, p.z, p.visibility⟩ : Landmark)) := by
  induction raw with
  | nil => rfl
  | cons a t ih =>
    rw [extract_landmarks_2d, List.map_cons, ← extract_landmarks_2d]
    by_cases hv : a.visibility > min_visibility_score
    · rw [if_pos hv]
      simp only [List.filterMap_cons, id_eq]
      rw [List.filter_cons_of_pos (by simp [hv]), List.map_cons, ih]
    · rw [if_neg hv]
      simp only [List.filterMap_cons, id_eq]
      rw [List.filter_cons_of_neg (by simp [hv]), ih]

lemma length_filter_isSome {α : Type} : ∀ l : List (Option α),
    (l.filter (fun x => x.isSome)).length = (l.filterMap id).length := by
  intro l
  induction l with
  | nil => rfl
  | cons a t ih =>
    cases a with
    | none => simpa [List.filter_cons, List.filterMap_cons] using ih
    | some x => simp [List.filter_cons, List.filterMap_cons, ih]

/-- C8: on an extracted landmark list, the quality assessor fails with
score 0 and the insufficient-joints issue exactly when fewer than
`min_joints_visible` landmarks clear the visibility threshold; otherwise
the score is the mean confidence over the present landmarks and validity
holds exactly when there are no issues and the score exceeds 0.7. -/
theorem assess_quality_spec (raw : List Landmark) (width height : ℝ) :
    ((raw.filter (fun p => decide (p.visibility > min_visibility_score))).length <
        min_joints_visible →
      assess_pose_quality (some (extract_landmarks_2d raw width height)) =
        ⟨false, 0, [PoseIssue.notEnoughJoints]⟩)
    ∧ (min_joints_visible ≤
        (raw.filter (fun p => decide (p.visibility > min_visibility_score))).length →
      (assess_pose_quality (some (extract_landmarks_2d raw width height))).score =
        listMean
          ((raw.filter (fun p => decide (p.visibility > min_visibility_score))).map
            (fun p => p.visibility))
      ∧ ((assess_pose_quality (some (extract_landmarks_2d raw width height))).is_valid =
            true ↔
          (assess_pose_quality (some (extract_landmarks_2d raw width height))).issues = []
          ∧ (assess_pose_quality (some (extract_landmarks_2d raw width height))).score >
              0.7)) := by
  have hcount :
      ((extract_landmarks_2d raw width height).filter (fun x => x.isSome)).length =
        (raw.filter (fun p => decide (p.visibility > min_visibility_score))).length := by
    rw [length_filter_isSome, extract_filterMap, List.length_map]
  constructor
  · intro hlt
    show (if ((extract_landmarks_2d raw width height).filter
          (fun x => x.isSome)).length < min_joints_visible then
        (⟨false, 0, [PoseIssue.notEnoughJoints]⟩ : QualityReport)
      else
        ⟨decide (poseIssues (extract_landmarks_2d raw width height) = [] ∧
            poseScore (extract_landmarks_2d raw width height) > 0.7),
         poseScore (extract_landmarks_2d raw width height),
         poseIssues (extract_landmarks_2d raw width height)⟩) =
      ⟨false, 0, [PoseIssue.notEnoughJoints]⟩
    rw [hcount, if_pos hlt]
  · intro hge
    have hnot : ¬ ((extract_landmarks_2d raw width height).filter
        (fun x => x.isSome)).length < min_joints_visible := by
      rw [hcount]
      omega
    have hassess : assess_pose_quality (some (extract_landmarks_2d raw width height)) =
        ⟨decide (poseIssues (extract_landmarks_2d raw width height) = [] ∧
            poseScore (extract_landmarks_2d raw width height) > 0.7),
         poseScore (extract_landmarks_2d raw width height),
         poseIssues (extract_landmarks_2d raw width height)⟩ := by
      show (if ((extract_landmarks_2d raw width height).filter
            (fun x => x.isSome)).length < min_joints_visible then
          (⟨false, 0, [PoseIssue.notEnoughJoints]⟩ : QualityReport)
        else _) = _
      rw [if_neg hnot]
    have hlenfm : ((extract_landmarks_2d raw width height).filterMap id).length =
        (raw.filter (fun p => decide (p.visibility > min_visibility_score))).length := by
      rw [extract_filterMap, List.length_map]
    have hne : ((extract_landmarks_2d raw width height).filterMap id).isEmpty = false := by
      have h28 : min_joints_visible = 28 := rfl
      cases hcase : (extract_landmarks_2d raw width height).filterMap id with
      | nil =>
        rw [hcase] at hlenfm
        rw [← hlenfm] at hge
        rw [h28] at hge
        simp at hge
      | cons a t => rfl
    have hscoreeq : poseScore (extract_landmarks_2d raw width height) =
        listMean
          ((raw.filter (fun p => decide (p.visibility > min_visibility_score))).map
            (fun p => p.visibility)) := by
      rw [poseScore]
      simp only [hne, Bool.false_eq_true, if_false]
      rw [extract_filterMap, List.map_map]
      rfl
    refine ⟨?_, ?_⟩
    · rw [hassess]
      exact hscoreeq
    · rw [hassess]
      simp only [decide_eq_true_eq]

/-- Witness for C8 at the empty landmark list (0 present < 28). -/
theorem assess_quality_spec_witness :
    assess_pose_quality (some (extract_landmarks_2d [] 640 480)) =
      ⟨false, 0, [PoseIssue.notEnoughJoints]⟩ :=
  (assess_quality_spec [] 640 480).1 (by decide)

/-- C10: the validator's standards table has exactly the keys chest,
waist, hip, arm_bicep, thigh_upper, calf; any other name is accepted
unconditionally with the no-standard message, and in particular every
sided measurement name the pipeline produces is accepted for every
value. -/
theorem validate_unknown_accepts (name : String) (v : ℝ) :
    CIRCUMFERENCE_STANDARDS.map Prod.fst =
      ["chest", "waist", "hip", "arm_bicep", "thigh_upper", "calf"]
    ∧ (name ∉ CIRCUMFERENCE_STANDARDS.map Prod.fst →
        validate_circumference name v =
          ⟨true, "No standard available", none, none⟩)
    ∧ (∀ nm ∈ (["biceps_left", "biceps_right", "forearm_left", "forearm_right",
        "thigh_left", "thigh_right", "calf_left", "calf_right"] : List String),
        nm ∈ MEASUREMENTS_TO_CAPTURE ∧
        validate_circumference nm v = ⟨true, "No standard available", none, none⟩) := by
  have hgen : ∀ nm : String, nm ∉ CIRCUMFERENCE_STANDARDS.map Prod.fst →
      validate_circumference nm v = ⟨true, "No standard available", none, none⟩ := by
    intro nm hnm
    rw [validate_circumference,
      dictFind_eq_none_of_not_mem nm CIRCUMFERENCE_STANDARDS hnm]
  refine ⟨rfl, hgen name, ?_⟩
  intro nm hnm
  refine ⟨?_, ?_⟩
  · fin_cases hnm <;> decide
  · apply hgen
    fin_cases hnm <;> decide

/-- Witness for C10: a sided name produced by the pipeline is accepted. -/
theorem validate_unknown_accepts_witness :
    validate_circumference "biceps_left" 0 =
      ⟨true, "No standard available", none, none⟩
    ∧ "biceps_left" ∈ MEASUREMENTS_TO_CAPTURE := by
  have h := validate_unknown_accepts "biceps_left" 0
  exact ⟨(h.2.2 "biceps_left" (by decide)).2, (h.2.2 "biceps_left" (by decide)).1⟩

end BodyMeas
